import Mathlib

/-!
Shallow embedding of the Voile Protocol Rust crate (commitment.rs, encryption.rs,
exit_note.rs, proof.rs, error.rs) and verification of its specification claims.

Bytes are modelled as `List Nat` (each element a byte value `< 256`); machine
integers `u64` / `u16` are `Nat` with explicit `% 2 ^ 64` / `% 2 ^ 16` where the
code truncates.  The crate's only cryptographic primitive, Keccak-256 (from the
`sha3` crate), is implemented concretely below and validated against the
standard test vectors.  Fallible Rust functions returning `Result<T, VoileError>`
become `Except VoileError T`.  The two sources of runtime randomness
(`rand::thread_rng` in `ProofGenerator::generate` and `EncryptedNote::encrypt`)
become explicit parameters (`random_k`, `counter`).
-/

set_option maxRecDepth 40000
set_option maxHeartbeats 4000000

/-! ## Byte-level helpers -/

/-- Little-endian 8-byte encoding of a `u64` (Rust `u64::to_le_bytes`). -/
def u64le (n : Nat) : List Nat :=
  [n % 256, n / 256 % 256, n / 256 ^ 2 % 256, n / 256 ^ 3 % 256,
   n / 256 ^ 4 % 256, n / 256 ^ 5 % 256, n / 256 ^ 6 % 256, n / 256 ^ 7 % 256]

/-- Little-endian 2-byte encoding of a `u16` (Rust `u16::to_le_bytes`);
truncation by `as u16` is the implicit `% 256` of each digit. -/
def u16le (n : Nat) : List Nat :=
  [n % 256, n / 256 % 256]

/-- Little-endian decoding of a byte list (Rust `u64::from_le_bytes` /
`u16::from_le_bytes` on a slice of the right width). -/
def leToNat (l : List Nat) : Nat :=
  l.foldr (fun b acc => b + 256 * acc) 0

/-- UTF-8 bytes of an ASCII string literal, as they are fed to the hasher. -/
def strBytes (s : String) : List Nat := s.data.map Char.toNat

/-- The all-zero 32-byte value `[0u8; 32]`. -/
def zero32 : List Nat := List.replicate 32 0

/-! ## Keccak-256 (the `sha3` crate's `Keccak256`)

State is 25 lanes of 64 bits, listed in index order `x + 5*y`; one round is
theta, rho+pi, chi, iota with the standard rotation offsets and round
constants.  Sponge: rate 136 bytes, multi-rate padding with domain byte `0x01`
(legacy Keccak, as used by Ethereum and the `Keccak256` type of `sha3`). -/

/-- Rotate a 64-bit lane left by `n` (0 ≤ n < 64). -/
def rotl64 (x n : Nat) : Nat :=
  ((x <<< n) ||| (x >>> (64 - n))) % 2 ^ 64

/-- Bitwise complement of a 64-bit lane. -/
def not64 (x : Nat) : Nat := x ^^^ (2 ^ 64 - 1)

/-- The 24 Keccak-f[1600] round constants (decimal). -/
def keccakRC : List Nat :=
  [1, 32898, 9223372036854808714,
   9223372039002292224, 32907, 2147483649,
   9223372039002292353, 9223372036854808585, 138,
   136, 2147516425, 2147483658,
   2147516555, 9223372036854775947, 9223372036854808713,
   9223372036854808579, 9223372036854808578, 9223372036854775936,
   32778, 9223372039002259466, 9223372039002292353,
   9223372036854808704, 2147483649, 9223372039002292232]

/-- One Keccak-f round: theta, rho+pi (rotation offsets inlined), chi, iota. -/
def keccakRound (rc : Nat) (s : List Nat) : List Nat :=
  match s with
  | [a00, a10, a20, a30, a40, a01, a11, a21, a31, a41,
     a02, a12, a22, a32, a42, a03, a13, a23, a33, a43,
     a04, a14, a24, a34, a44] =>
    let c0 := a00 ^^^ a01 ^^^ a02 ^^^ a03 ^^^ a04
    let c1 := a10 ^^^ a11 ^^^ a12 ^^^ a13 ^^^ a14
    let c2 := a20 ^^^ a21 ^^^ a22 ^^^ a23 ^^^ a24
    let c3 := a30 ^^^ a31 ^^^ a32 ^^^ a33 ^^^ a34
    let c4 := a40 ^^^ a41 ^^^ a42 ^^^ a43 ^^^ a44
    let d0 := c4 ^^^ rotl64 c1 1
    let d1 := c0 ^^^ rotl64 c2 1
    let d2 := c1 ^^^ rotl64 c3 1
    let d3 := c2 ^^^ rotl64 c4 1
    let d4 := c3 ^^^ rotl64 c0 1
    let t00 := a00 ^^^ d0
    let t10 := a10 ^^^ d1
    let t20 := a20 ^^^ d2
    let t30 := a30 ^^^ d3
    let t40 := a40 ^^^ d4
    let t01 := a01 ^^^ d0
    let t11 := a11 ^^^ d1
    let t21 := a21 ^^^ d2
    let t31 := a31 ^^^ d3
    let t41 := a41 ^^^ d4
    let t02 := a02 ^^^ d0
    let t12 := a12 ^^^ d1
    let t22 := a22 ^^^ d2
    let t32 := a32 ^^^ d3
    let t42 := a42 ^^^ d4
    let t03 := a03 ^^^ d0
    let t13 := a13 ^^^ d1
    let t23 := a23 ^^^ d2
    let t33 := a33 ^^^ d3
    let t43 := a43 ^^^ d4
    let t04 := a04 ^^^ d0
    let t14 := a14 ^^^ d1
    let t24 := a24 ^^^ d2
    let t34 := a34 ^^^ d3
    let t44 := a44 ^^^ d4
    let b00 := t00
    let b10 := rotl64 t11 44
    let b20 := rotl64 t22 43
    let b30 := rotl64 t33 21
    let b40 := rotl64 t44 14
    let b01 := rotl64 t30 28
    let b11 := rotl64 t41 20
    let b21 := rotl64 t02 3
    let b31 := rotl64 t13 45
    let b41 := rotl64 t24 61
    let b02 := rotl64 t10 1
    let b12 := rotl64 t21 6
    let b22 := rotl64 t32 25
    let b32 := rotl64 t43 8
    let b42 := rotl64 t04 18
    let b03 := rotl64 t40 27
    let b13 := rotl64 t01 36
    let b23 := rotl64 t12 10
    let b33 := rotl64 t23 15
    let b43 := rotl64 t34 56
    let b04 := rotl64 t20 62
    let b14 := rotl64 t31 55
    let b24 := rotl64 t42 39
    let b34 := rotl64 t03 41
    let b44 := rotl64 t14 2
    [(b00 ^^^ (not64 b10 &&& b20)) ^^^ rc,
     b10 ^^^ (not64 b20 &&& b30),
     b20 ^^^ (not64 b30 &&& b40),
     b30 ^^^ (not64 b40 &&& b00),
     b40 ^^^ (not64 b00 &&& b10),
     b01 ^^^ (not64 b11 &&& b21),
     b11 ^^^ (not64 b21 &&& b31),
     b21 ^^^ (not64 b31 &&& b41),
     b31 ^^^ (not64 b41 &&& b01),
     b41 ^^^ (not64 b01 &&& b11),
     b02 ^^^ (not64 b12 &&& b22),
     b12 ^^^ (not64 b22 &&& b32),
     b22 ^^^ (not64 b32 &&& b42),
     b32 ^^^ (not64 b42 &&& b02),
     b42 ^^^ (not64 b02 &&& b12),
     b03 ^^^ (not64 b13 &&& b23),
     b13 ^^^ (not64 b23 &&& b33),
     b23 ^^^ (not64 b33 &&& b43),
     b33 ^^^ (not64 b43 &&& b03),
     b43 ^^^ (not64 b03 &&& b13),
     b04 ^^^ (not64 b14 &&& b24),
     b14 ^^^ (not64 b24 &&& b34),
     b24 ^^^ (not64 b34 &&& b44),
     b34 ^^^ (not64 b44 &&& b04),
     b44 ^^^ (not64 b04 &&& b14)]
  | _ => s

/-- The full Keccak-f[1600] permutation: 24 rounds. -/
def keccakF (s : List Nat) : List Nat :=
  keccakRC.foldl (fun st rc => keccakRound rc st) s

/-- Multi-rate padding `pad10*1` with Keccak domain byte `0x01`, rate 136. -/
def keccakPad (msg : List Nat) : List Nat :=
  let padlen := 136 - msg.length % 136
  if padlen = 1 then msg ++ [0x81]
  else msg ++ [0x01] ++ List.replicate (padlen - 2) 0 ++ [0x80]

/-- Absorb one 136-byte block into the state (XOR into the first 17 lanes,
little-endian within each lane), then permute. -/
def absorbBlock (s : List Nat) (block : List Nat) : List Nat :=
  keccakF ((List.range 25).map (fun i =>
    s.getD i 0 ^^^ (if i < 17 then leToNat ((block.drop (8 * i)).take 8) else 0)))

/-- Keccak-256 of a byte list: pad, absorb all blocks, squeeze 32 bytes
(the first four lanes, little-endian). -/
def keccak256 (msg : List Nat) : List Nat :=
  let padded := keccakPad msg
  let nb := padded.length / 136
  let final := (List.range nb).foldl
    (fun s i => absorbBlock s ((padded.drop (136 * i)).take 136)) (List.replicate 25 0)
  u64le (final.getD 0 0) ++ u64le (final.getD 1 0) ++ u64le (final.getD 2 0) ++
    u64le (final.getD 3 0)

/-! ## error.rs -/

/-- Rust enum `VoileError`; each variant carries its message string. -/
inductive VoileError where
  | InvalidCommitment (msg : String)
  | EncryptionError (msg : String)
  | DecryptionError (msg : String)
  | InvalidExitNote (msg : String)
  | ProofGenerationError (msg : String)
  | ProofVerificationFailed (msg : String)
  | InvalidKey (msg : String)
  deriving DecidableEq

/-! ## commitment.rs -/

/-- Rust struct `Commitment`: a 32-byte Keccak-256 hash. -/
structure Commitment where
  hash : List Nat
  deriving DecidableEq

/-- Mirrors `Commitment::new`: `H(value || blinding_factor)` with Keccak-256. -/
def Commitment.new (value : List Nat) (blinding_factor : List Nat) : Commitment :=
  { hash := keccak256 (value ++ blinding_factor) }

/-- Mirrors `Commitment::verify`. -/
def Commitment.verify (c : Commitment) (value : List Nat) (blinding_factor : List Nat) :
    Bool :=
  decide (c.hash = (Commitment.new value blinding_factor).hash)

/-- Mirrors `Commitment::as_bytes`. -/
def Commitment.as_bytes (c : Commitment) : List Nat := c.hash

/-- Mirrors `Commitment::from_bytes`: rejects unless exactly 32 bytes. -/
def Commitment.from_bytes (bytes : List Nat) : Except VoileError Commitment :=
  if bytes.length ≠ 32 then
    .error (.InvalidCommitment ("Expected 32 bytes, got " ++ toString bytes.length))
  else
    .ok { hash := bytes }

/-! ## exit_note.rs : ExitTerms -/

/-- Rust enum `ExitTerms`. `blocks` is a `u64`, the bps fields are `u16`. -/
inductive ExitTerms where
  | Immediate
  | Standard
  | Delayed (blocks : Nat)
  | Custom (min_rate_bps : Nat) (max_slippage_bps : Nat)
  deriving DecidableEq

/-- Mirrors `ExitTerms::to_bytes`: tag byte then the variant payload in
little-endian. -/
def ExitTerms.to_bytes : ExitTerms → List Nat
  | .Immediate => [0]
  | .Standard => [1]
  | .Delayed blocks => 2 :: u64le blocks
  | .Custom min_rate_bps max_slippage_bps =>
      3 :: (u16le min_rate_bps ++ u16le max_slippage_bps)

/-- Mirrors `ExitTerms::from_bytes`: empty input, unknown tag, or a payload
shorter than the variant requires is `InvalidExitNote`. -/
def ExitTerms.from_bytes (bytes : List Nat) : Except VoileError ExitTerms :=
  match bytes with
  | [] => .error (.InvalidExitNote "Empty terms data")
  | b :: _ =>
    if b = 0 then .ok .Immediate
    else if b = 1 then .ok .Standard
    else if b = 2 then
      if bytes.length < 9 then
        .error (.InvalidExitNote "Delayed terms missing blocks")
      else
        .ok (.Delayed (leToNat ((bytes.drop 1).take 8)))
    else if b = 3 then
      if bytes.length < 5 then
        .error (.InvalidExitNote "Custom terms missing parameters")
      else
        .ok (.Custom (leToNat ((bytes.drop 1).take 2)) (leToNat ((bytes.drop 3).take 2)))
    else .error (.InvalidExitNote ("Unknown terms type: " ++ toString b))

/-- Range invariant the Rust types carry for free: `blocks : u64`,
`min_rate_bps max_slippage_bps : u16`. -/
def ExitTerms.wf : ExitTerms → Prop
  | .Immediate => True
  | .Standard => True
  | .Delayed blocks => blocks < 2 ^ 64
  | .Custom min_rate_bps max_slippage_bps =>
      min_rate_bps < 2 ^ 16 ∧ max_slippage_bps < 2 ^ 16

instance (t : ExitTerms) : Decidable t.wf := by
  cases t <;> simp [ExitTerms.wf] <;> infer_instance

/-! ## exit_note.rs : ExitNote -/

/-- Rust struct `ExitNote`.  `note_id`, `owner`, `blinding_factor` are
`[u8; 32]`; `amount`, `created_at` are `u64`. -/
structure ExitNote where
  note_id : List Nat
  amount : Nat
  owner : List Nat
  terms : ExitTerms
  created_at : Nat
  blinding_factor : List Nat
  deriving DecidableEq

/-- Range and length invariants the Rust struct carries for free. -/
def ExitNote.wf (n : ExitNote) : Prop :=
  n.note_id.length = 32 ∧ n.amount < 2 ^ 64 ∧ n.owner.length = 32 ∧
    n.terms.wf ∧ n.created_at < 2 ^ 64 ∧ n.blinding_factor.length = 32

instance (n : ExitNote) : Decidable n.wf := by
  unfold ExitNote.wf; infer_instance

/-- Mirrors `ExitNote::to_bytes`: note_id, amount (LE), owner, created_at (LE),
blinding_factor, terms length as `u16` (LE), terms bytes. -/
def ExitNote.to_bytes (n : ExitNote) : List Nat :=
  n.note_id ++ u64le n.amount ++ n.owner ++ u64le n.created_at ++
    n.blinding_factor ++ u16le n.terms.to_bytes.length ++ n.terms.to_bytes

/-- Mirrors `ExitNote::from_bytes`: header is 114 bytes, then `terms_len`
bytes of terms; trailing bytes beyond that are not read. -/
def ExitNote.from_bytes (bytes : List Nat) : Except VoileError ExitNote :=
  if bytes.length < 114 then
    .error (.InvalidExitNote ("Exit note too short: " ++ toString bytes.length ++ " bytes"))
  else
    let note_id := bytes.take 32
    let amount := leToNat ((bytes.drop 32).take 8)
    let owner := (bytes.drop 40).take 32
    let created_at := leToNat ((bytes.drop 72).take 8)
    let blinding_factor := (bytes.drop 80).take 32
    let terms_len := leToNat ((bytes.drop 112).take 2)
    if bytes.length < 114 + terms_len then
      .error (.InvalidExitNote "Exit note truncated")
    else
      match ExitTerms.from_bytes ((bytes.drop 114).take terms_len) with
      | .error e => .error e
      | .ok terms =>
        .ok { note_id, amount, owner, terms, created_at, blinding_factor }

/-- Mirrors `ExitNote::commitment`: commit to the serialized note under the
note's own blinding factor. -/
def ExitNote.commitment (n : ExitNote) : Commitment :=
  Commitment.new n.to_bytes n.blinding_factor

/-- Mirrors `ExitNote::verify_commitment`. -/
def ExitNote.verify_commitment (n : ExitNote) (c : Commitment) : Bool :=
  decide (n.commitment = c)

/-! ## encryption.rs -/

/-- Rust struct `EncryptionKey`: 32 raw key bytes. -/
structure EncryptionKey where
  key : List Nat
  deriving DecidableEq

/-- Mirrors `EncryptionKey::from_bytes`: rejects unless exactly 32 bytes. -/
def EncryptionKey.from_bytes (bytes : List Nat) : Except VoileError EncryptionKey :=
  if bytes.length ≠ 32 then
    .error (.InvalidKey ("Expected 32 bytes, got " ++ toString bytes.length))
  else
    .ok { key := bytes }

/-- Mirrors `EncryptionKey::derive_nonce`:
`H("voile_nonce" || key || counter_le)`. -/
def EncryptionKey.derive_nonce (k : EncryptionKey) (counter : Nat) : List Nat :=
  keccak256 (strBytes "voile_nonce" ++ k.key ++ u64le counter)

/-- Mirrors `EncryptionKey::derive_keystream`: concatenate
`H(key || nonce || block_counter_le)` blocks until `length` bytes are
available, truncating the last block.  The Rust while-loop that pushes bytes
until `keystream.len() == length` produces exactly the first `length` bytes of
the concatenation of the blocks for counters `0, 1, ...`. -/
def EncryptionKey.derive_keystream (k : EncryptionKey) (nonce : List Nat)
    (length : Nat) : List Nat :=
  (((List.range ((length + 31) / 32)).map
    (fun i => keccak256 (k.key ++ nonce ++ u64le i))).flatten).take length

/-- Rust struct `EncryptedNote`: ciphertext plus the `u64` nonce counter. -/
structure EncryptedNote where
  ciphertext : List Nat
  counter : Nat
  deriving DecidableEq

/-- Mirrors `EncryptedNote::encrypt`; the randomly drawn `u64` counter is an
explicit parameter.  XOR the plaintext with the derived keystream. -/
def EncryptedNote.encrypt (key : EncryptionKey) (plaintext : List Nat)
    (counter : Nat) : EncryptedNote :=
  let nonce := key.derive_nonce counter
  let keystream := key.derive_keystream nonce plaintext.length
  { ciphertext := List.zipWith (fun p k => p ^^^ k) plaintext keystream, counter }

/-- Mirrors `EncryptedNote::decrypt`: rederive the keystream from the stored
counter and XOR back; the only exit is `Ok`. -/
def EncryptedNote.decrypt (e : EncryptedNote) (key : EncryptionKey) :
    Except VoileError (List Nat) :=
  let nonce := key.derive_nonce e.counter
  let keystream := key.derive_keystream nonce e.ciphertext.length
  .ok (List.zipWith (fun c k => c ^^^ k) e.ciphertext keystream)

/-- Mirrors `EncryptedNote::to_bytes`: counter (LE, 8 bytes) then ciphertext. -/
def EncryptedNote.to_bytes (e : EncryptedNote) : List Nat :=
  u64le e.counter ++ e.ciphertext

/-- Mirrors `EncryptedNote::from_bytes`. -/
def EncryptedNote.from_bytes (bytes : List Nat) : Except VoileError EncryptedNote :=
  if bytes.length < 8 then
    .error (.DecryptionError "Encrypted note too short")
  else
    .ok { ciphertext := bytes.drop 8, counter := leToNat (bytes.take 8) }

/-- Mirrors `ExitNote::encrypt`. -/
def ExitNote.encrypt (n : ExitNote) (key : EncryptionKey) (counter : Nat) :
    EncryptedNote :=
  EncryptedNote.encrypt key n.to_bytes counter

/-- Mirrors `ExitNote::decrypt`. -/
def ExitNote.decrypt (encrypted : EncryptedNote) (key : EncryptionKey) :
    Except VoileError ExitNote :=
  match encrypted.decrypt key with
  | .error e => .error e
  | .ok plaintext => ExitNote.from_bytes plaintext

/-! ## proof.rs : ExitProof -/

/-- Rust struct `ExitProof` (160 bytes serialized). -/
structure ExitProof where
  commitment : Commitment
  announcement : List Nat
  response : List Nat
  verification_tag : List Nat
  nullifier : List Nat
  deriving DecidableEq

/-- Mirrors `ExitProof::to_bytes`: commitment, announcement, response,
verification_tag, nullifier. -/
def ExitProof.to_bytes (p : ExitProof) : List Nat :=
  p.commitment.as_bytes ++ p.announcement ++ p.response ++ p.verification_tag ++
    p.nullifier

/-- Mirrors `ExitProof::from_bytes`: rejects unless exactly 160 bytes. -/
def ExitProof.from_bytes (bytes : List Nat) : Except VoileError ExitProof :=
  if bytes.length ≠ 160 then
    .error (.ProofVerificationFailed
      ("Invalid proof size: expected 160, got " ++ toString bytes.length))
  else
    match Commitment.from_bytes (bytes.take 32) with
    | .error e => .error e
    | .ok commitment =>
      .ok { commitment,
            announcement := (bytes.drop 32).take 32,
            response := (bytes.drop 64).take 32,
            verification_tag := (bytes.drop 96).take 32,
            nullifier := (bytes.drop 128).take 32 }

/-- Length invariant the Rust `[u8; 32]` fields carry for free. -/
def ExitProof.wf (p : ExitProof) : Prop :=
  p.commitment.hash.length = 32 ∧ p.announcement.length = 32 ∧
    p.response.length = 32 ∧ p.verification_tag.length = 32 ∧
    p.nullifier.length = 32

instance (p : ExitProof) : Decidable p.wf := by
  unfold ExitProof.wf; infer_instance

/-! ## proof.rs : ProofGenerator -/

/-- Rust struct `ProofGenerator`: holds the hashed domain separator. -/
structure ProofGenerator where
  domain : List Nat
  deriving DecidableEq

/-- Mirrors `ProofGenerator::new`: `domain = H("voile_proof_domain" || arg)`. -/
def ProofGenerator.new (domain : List Nat) : ProofGenerator :=
  { domain := keccak256 (strBytes "voile_proof_domain" ++ domain) }

/-- Mirrors `ProofGenerator::compute_nullifier`:
`H("voile_nullifier" || domain || note_id || owner_secret)`. -/
def ProofGenerator.compute_nullifier (g : ProofGenerator) (note_id : List Nat)
    (owner_secret : List Nat) : List Nat :=
  keccak256 (strBytes "voile_nullifier" ++ g.domain ++ note_id ++ owner_secret)

/-- Mirrors `ProofGenerator::compute_announcement`:
`H("voile_announcement" || domain || k)`. -/
def ProofGenerator.compute_announcement (g : ProofGenerator) (random_k : List Nat) :
    List Nat :=
  keccak256 (strBytes "voile_announcement" ++ g.domain ++ random_k)

/-- Mirrors `ProofGenerator::compute_challenge`:
`H("voile_challenge" || domain || commitment || nullifier || announcement)`. -/
def ProofGenerator.compute_challenge (g : ProofGenerator) (commitment : Commitment)
    (nullifier : List Nat) (announcement : List Nat) : List Nat :=
  keccak256 (strBytes "voile_challenge" ++ g.domain ++ commitment.as_bytes ++
    nullifier ++ announcement)

/-- Mirrors `ProofGenerator::compute_response`:
`H("voile_response" || domain || k || challenge || owner_secret)`. -/
def ProofGenerator.compute_response (g : ProofGenerator) (random_k : List Nat)
    (challenge : List Nat) (owner_secret : List Nat) : List Nat :=
  keccak256 (strBytes "voile_response" ++ g.domain ++ random_k ++ challenge ++
    owner_secret)

/-- Mirrors `ProofGenerator::compute_verification_tag`:
`H("voile_verification_tag" || domain || response || challenge || announcement
|| commitment || nullifier)`. -/
def ProofGenerator.compute_verification_tag (g : ProofGenerator)
    (response : List Nat) (challenge : List Nat) (announcement : List Nat)
    (commitment : Commitment) (nullifier : List Nat) : List Nat :=
  keccak256 (strBytes "voile_verification_tag" ++ g.domain ++ response ++
    challenge ++ announcement ++ commitment.as_bytes ++ nullifier)

/-- Mirrors `ProofGenerator::generate`; the randomly drawn nonce `k` is an
explicit parameter.  The only exit of the Rust function is `Ok`. -/
def ProofGenerator.generate (g : ProofGenerator) (note : ExitNote)
    (owner_secret : List Nat) (random_k : List Nat) : Except VoileError ExitProof :=
  let commitment := note.commitment
  let nullifier := g.compute_nullifier note.note_id owner_secret
  let announcement := g.compute_announcement random_k
  let challenge := g.compute_challenge commitment nullifier announcement
  let response := g.compute_response random_k challenge owner_secret
  let verification_tag :=
    g.compute_verification_tag response challenge announcement commitment nullifier
  .ok { commitment, announcement, response, verification_tag, nullifier }

/-! ## proof.rs : ProofVerifier -/

/-- Rust struct `ProofVerifier`: the hashed domain separator plus the set of
used nullifiers.  The `HashSet<[u8; 32]>` is modelled as a list whose
membership relation is the set's `contains`. -/
structure ProofVerifier where
  domain : List Nat
  used_nullifiers : List (List Nat)
  deriving DecidableEq

/-- Mirrors `ProofVerifier::new`: same domain hash as the generator, empty
used-nullifier set. -/
def ProofVerifier.new (domain : List Nat) : ProofVerifier :=
  { domain := keccak256 (strBytes "voile_proof_domain" ++ domain),
    used_nullifiers := [] }

/-- Mirrors `ProofVerifier::compute_challenge` (same formula as the prover). -/
def ProofVerifier.compute_challenge (v : ProofVerifier) (commitment : Commitment)
    (nullifier : List Nat) (announcement : List Nat) : List Nat :=
  keccak256 (strBytes "voile_challenge" ++ v.domain ++ commitment.as_bytes ++
    nullifier ++ announcement)

/-- Mirrors `ProofVerifier::compute_verification_tag` (same formula as the
prover). -/
def ProofVerifier.compute_verification_tag (v : ProofVerifier)
    (response : List Nat) (challenge : List Nat) (announcement : List Nat)
    (commitment : Commitment) (nullifier : List Nat) : List Nat :=
  keccak256 (strBytes "voile_verification_tag" ++ v.domain ++ response ++
    challenge ++ announcement ++ commitment.as_bytes ++ nullifier)

/-- Mirrors `ProofVerifier::verify_basic_structure`: each of the four 32-byte
fields must differ from the all-zero value. -/
def ProofVerifier.verify_basic_structure (_v : ProofVerifier) (proof : ExitProof) :
    Except VoileError Unit :=
  if proof.response = zero32 then
    .error (.ProofVerificationFailed "Invalid response: zero value")
  else if proof.announcement = zero32 then
    .error (.ProofVerificationFailed "Invalid announcement: zero value")
  else if proof.nullifier = zero32 then
    .error (.ProofVerificationFailed "Invalid nullifier: zero value")
  else if proof.verification_tag = zero32 then
    .error (.ProofVerificationFailed "Invalid verification tag: zero value")
  else
    .ok ()

/-- Mirrors `ProofVerifier::verify_proof_cryptography`: recompute the challenge
and the expected verification tag; mismatch is an error. -/
def ProofVerifier.verify_proof_cryptography (v : ProofVerifier) (proof : ExitProof) :
    Except VoileError Unit :=
  let challenge := v.compute_challenge proof.commitment proof.nullifier proof.announcement
  let expected_tag := v.compute_verification_tag proof.response challenge
    proof.announcement proof.commitment proof.nullifier
  if proof.verification_tag ≠ expected_tag then
    .error (.ProofVerificationFailed "Verification tag mismatch")
  else
    .ok ()

/-- Mirrors `ProofVerifier::verify`: used-nullifier check first, then the
structural checks, then the cryptographic check. -/
def ProofVerifier.verify (v : ProofVerifier) (proof : ExitProof) :
    Except VoileError Unit :=
  if proof.nullifier ∈ v.used_nullifiers then
    .error (.ProofVerificationFailed "Nullifier already used")
  else
    match v.verify_basic_structure proof with
    | .error e => .error e
    | .ok _ => v.verify_proof_cryptography proof

/-- Mirrors `ProofVerifier::mark_nullifier_used`: insert into the set. -/
def ProofVerifier.mark_nullifier_used (v : ProofVerifier) (nullifier : List Nat) :
    ProofVerifier :=
  { v with used_nullifiers := nullifier :: v.used_nullifiers }

/-- Mirrors `ProofVerifier::is_nullifier_used`. -/
def ProofVerifier.is_nullifier_used (v : ProofVerifier) (nullifier : List Nat) :
    Bool :=
  decide (nullifier ∈ v.used_nullifiers)

/-! ## Validation of the Keccak-256 embedding against standard test vectors -/

/-- Keccak-256 of the empty message (standard test vector). -/
theorem keccak256_vector_empty :
    keccak256 [] =
      [0xc5, 0xd2, 0x46, 0x01, 0x86, 0xf7, 0x23, 0x3c, 0x92, 0x7e, 0x7d, 0xb2,
       0xdc, 0xc7, 0x03, 0xc0, 0xe5, 0x00, 0xb6, 0x53, 0xca, 0x82, 0x27, 0x3b,
       0x7b, 0xfa, 0xd8, 0x04, 0x5d, 0x85, 0xa4, 0x70] := by
  decide

/-- Keccak-256 of "abc" (standard test vector). -/
theorem keccak256_vector_abc :
    keccak256 [0x61, 0x62, 0x63] =
      [0x4e, 0x03, 0x65, 0x7a, 0xea, 0x45, 0xa9, 0x4f, 0xc7, 0xd4, 0x7b, 0xa8,
       0x26, 0xc8, 0xd6, 0x67, 0xc0, 0xd1, 0xe6, 0xe3, 0x3a, 0x64, 0xa0, 0x36,
       0xec, 0x44, 0xf5, 0x8f, 0xa1, 0x2d, 0x6c, 0x45] := by
  decide

/-! ## Basic length and decoding lemmas -/

/-- Keccak-256 always squeezes exactly 32 bytes. -/
theorem keccak256_length (msg : List Nat) : (keccak256 msg).length = 32 := by
  simp [keccak256, u64le]

/-- Decoding inverts the 8-byte little-endian encoding on `u64` range. -/
theorem leToNat_u64le (n : Nat) (h : n < 2 ^ 64) : leToNat (u64le n) = n := by
  simp [u64le, leToNat]
  omega

/-- Decoding inverts the 2-byte little-endian encoding on `u16` range. -/
theorem leToNat_u16le (n : Nat) (h : n < 2 ^ 16) : leToNat (u16le n) = n := by
  simp [u16le, leToNat]
  omega

/-- The derived keystream has exactly the requested length. -/
theorem derive_keystream_length (k : EncryptionKey) (nonce : List Nat) (n : Nat) :
    (k.derive_keystream nonce n).length = n := by
  unfold EncryptionKey.derive_keystream
  rw [List.length_take]
  apply Nat.min_eq_left
  have hflat :
      ((((List.range ((n + 31) / 32)).map
        (fun i => keccak256 (k.key ++ nonce ++ u64le i)))).flatten).length =
        32 * ((n + 31) / 32) := by
    rw [List.length_flatten, List.map_map]
    have hmap : ((List.range ((n + 31) / 32)).map
        (List.length ∘ fun i => keccak256 (k.key ++ nonce ++ u64le i))) =
        (List.range ((n + 31) / 32)).map (fun _ => 32) := by
      apply List.map_congr_left
      intro i _
      simp [keccak256_length]
    rw [hmap, List.map_const', List.sum_replicate, List.length_range]
    simp [Nat.mul_comm]
  rw [hflat]
  have hdm := Nat.div_add_mod (n + 31) 32
  have hlt : (n + 31) % 32 < 32 := Nat.mod_lt _ (by omega)
  omega

/-- XOR-ing twice with the same keystream gives back the plaintext. -/
theorem zipWith_xor_cancel (pt ks : List Nat) (h : pt.length ≤ ks.length) :
    List.zipWith (fun c k => c ^^^ k) (List.zipWith (fun p k => p ^^^ k) pt ks) ks = pt := by
  induction pt generalizing ks with
  | nil => simp
  | cons p rest ih =>
    cases ks with
    | nil => simp at h
    | cons q qs =>
      simp only [List.zipWith_cons_cons]
      rw [Nat.xor_assoc, Nat.xor_self, Nat.xor_zero]
      rw [ih qs (by simpa using h)]

/-! ## Serialization round-trip helper lemmas -/

/-- Exact encoded length of each `ExitTerms` variant. -/
theorem ExitTerms.to_bytes_length_le (t : ExitTerms) : t.to_bytes.length ≤ 9 := by
  cases t <;> simp [ExitTerms.to_bytes, u64le, u16le]

/-- Terms decoding inverts terms encoding on well-formed values. -/
theorem exitTerms_roundtrip (t : ExitTerms) (h : t.wf) :
    ExitTerms.from_bytes t.to_bytes = .ok t := by
  cases t with
  | Immediate => rfl
  | Standard => rfl
  | Delayed blocks =>
    have hw : blocks < 2 ^ 64 := h
    simp only [ExitTerms.to_bytes, ExitTerms.from_bytes]
    norm_num [u64le, leToNat]
    omega
  | Custom mr ms =>
    obtain ⟨hw1, hw2⟩ := h
    simp only [ExitTerms.to_bytes, ExitTerms.from_bytes]
    norm_num [u16le, leToNat]
    constructor <;> omega

/-- Serialized length of an exit note: a 114-byte header plus the terms. -/
theorem ExitNote.to_bytes_length (n : ExitNote) (h : n.wf) :
    n.to_bytes.length = 114 + n.terms.to_bytes.length := by
  obtain ⟨h1, _, h3, _, _, h6⟩ := h
  simp [ExitNote.to_bytes, u64le, u16le, h1, h3, h6]
  omega

/-- Note decoding inverts note encoding on well-formed values. -/
theorem exitNote_roundtrip (n : ExitNote) (h : n.wf) :
    ExitNote.from_bytes n.to_bytes = .ok n := by
  obtain ⟨h1, h2, h3, h4, h5, h6⟩ := h
  have hb : n.to_bytes = n.note_id ++ (u64le n.amount ++ (n.owner ++ (u64le n.created_at ++
      (n.blinding_factor ++ (u16le n.terms.to_bytes.length ++ n.terms.to_bytes))))) := by
    simp [ExitNote.to_bytes]
  have hd32 : n.to_bytes.drop 32 = u64le n.amount ++ (n.owner ++ (u64le n.created_at ++
      (n.blinding_factor ++ (u16le n.terms.to_bytes.length ++ n.terms.to_bytes)))) := by
    rw [hb]; exact List.drop_left' h1
  have hd40 : n.to_bytes.drop 40 = n.owner ++ (u64le n.created_at ++
      (n.blinding_factor ++ (u16le n.terms.to_bytes.length ++ n.terms.to_bytes))) := by
    have : n.to_bytes.drop 40 = (n.to_bytes.drop 32).drop 8 := by
      rw [List.drop_drop]
    rw [this, hd32]; exact List.drop_left' (by simp [u64le])
  have hd72 : n.to_bytes.drop 72 = u64le n.created_at ++
      (n.blinding_factor ++ (u16le n.terms.to_bytes.length ++ n.terms.to_bytes)) := by
    have : n.to_bytes.drop 72 = (n.to_bytes.drop 40).drop 32 := by
      rw [List.drop_drop]
    rw [this, hd40]; exact List.drop_left' h3
  have hd80 : n.to_bytes.drop 80 = n.blinding_factor ++
      (u16le n.terms.to_bytes.length ++ n.terms.to_bytes) := by
    have : n.to_bytes.drop 80 = (n.to_bytes.drop 72).drop 8 := by
      rw [List.drop_drop]
    rw [this, hd72]; exact List.drop_left' (by simp [u64le])
  have hd112 : n.to_bytes.drop 112 = u16le n.terms.to_bytes.length ++ n.terms.to_bytes := by
    have : n.to_bytes.drop 112 = (n.to_bytes.drop 80).drop 32 := by
      rw [List.drop_drop]
    rw [this, hd80]; exact List.drop_left' h6
  have hd114 : n.to_bytes.drop 114 = n.terms.to_bytes := by
    have : n.to_bytes.drop 114 = (n.to_bytes.drop 112).drop 2 := by
      rw [List.drop_drop]
    rw [this, hd112]; exact List.drop_left' (by simp [u16le])
  have hlen : n.to_bytes.length = 114 + n.terms.to_bytes.length :=
    ExitNote.to_bytes_length n ⟨h1, h2, h3, h4, h5, h6⟩
  have htl : leToNat ((n.to_bytes.drop 112).take 2) = n.terms.to_bytes.length := by
    rw [hd112, List.take_left' (by simp [u16le])]
    exact leToNat_u16le _ (by have := ExitTerms.to_bytes_length_le n.terms; omega)
  simp only [ExitNote.from_bytes]
  rw [if_neg (by omega)]
  rw [htl]
  rw [if_neg (by omega)]
  rw [hd114, List.take_of_length_le (by omega)]
  rw [exitTerms_roundtrip n.terms h4]
  have hid : n.to_bytes.take 32 = n.note_id := by
    rw [hb]; exact List.take_left' h1
  have ham : leToNat ((n.to_bytes.drop 32).take 8) = n.amount := by
    rw [hd32, List.take_left' (by simp [u64le])]; exact leToNat_u64le _ h2
  have how : (n.to_bytes.drop 40).take 32 = n.owner := by
    rw [hd40]; exact List.take_left' h3
  have hca : leToNat ((n.to_bytes.drop 72).take 8) = n.created_at := by
    rw [hd72, List.take_left' (by simp [u64le])]; exact leToNat_u64le _ h5
  have hbf : (n.to_bytes.drop 80).take 32 = n.blinding_factor := by
    rw [hd80]; exact List.take_left' h6
  rw [hid, ham, how, hca, hbf]

/-- Encrypted-note decoding inverts encoding when the counter fits in `u64`. -/
theorem encryptedNote_roundtrip (e : EncryptedNote) (h : e.counter < 2 ^ 64) :
    EncryptedNote.from_bytes e.to_bytes = .ok e := by
  simp only [EncryptedNote.to_bytes, EncryptedNote.from_bytes]
  rw [if_neg (by simp [u64le])]
  rw [List.drop_left' (by simp [u64le]), List.take_left' (by simp [u64le])]
  rw [leToNat_u64le _ h]

/-- Proof decoding inverts proof encoding on well-formed proofs. -/
theorem exitProof_roundtrip (p : ExitProof) (h : p.wf) :
    ExitProof.from_bytes p.to_bytes = .ok p := by
  obtain ⟨h1, h2, h3, h4, h5⟩ := h
  have hb : p.to_bytes = p.commitment.hash ++ (p.announcement ++ (p.response ++
      (p.verification_tag ++ p.nullifier))) := by
    simp [ExitProof.to_bytes, Commitment.as_bytes]
  have hd32 : p.to_bytes.drop 32 = p.announcement ++ (p.response ++
      (p.verification_tag ++ p.nullifier)) := by
    rw [hb]; exact List.drop_left' h1
  have hd64 : p.to_bytes.drop 64 = p.response ++ (p.verification_tag ++ p.nullifier) := by
    have : p.to_bytes.drop 64 = (p.to_bytes.drop 32).drop 32 := by rw [List.drop_drop]
    rw [this, hd32]; exact List.drop_left' h2
  have hd96 : p.to_bytes.drop 96 = p.verification_tag ++ p.nullifier := by
    have : p.to_bytes.drop 96 = (p.to_bytes.drop 64).drop 32 := by rw [List.drop_drop]
    rw [this, hd64]; exact List.drop_left' h3
  have hd128 : p.to_bytes.drop 128 = p.nullifier := by
    have : p.to_bytes.drop 128 = (p.to_bytes.drop 96).drop 32 := by rw [List.drop_drop]
    rw [this, hd96]; exact List.drop_left' h4
  have hlen : p.to_bytes.length = 160 := by
    rw [hb]; simp [h1, h2, h3, h4, h5]
  simp only [ExitProof.from_bytes]
  rw [if_neg (by omega)]
  have hc : p.to_bytes.take 32 = p.commitment.hash := by
    rw [hb]; exact List.take_left' h1
  rw [hc]
  have : Commitment.from_bytes p.commitment.hash = .ok p.commitment := by
    simp only [Commitment.from_bytes]
    rw [if_neg (by omega)]
  rw [this]
  rw [hd32, List.take_left' h2, hd64, List.take_left' h3, hd96, List.take_left' h4,
    hd128, List.take_of_length_le (by omega)]

/-! ## Claim theorems -/

/-- C5: for every encryption key, every plaintext (including the empty one),
and whatever random counter `encrypt` draws, decrypting the encrypted note
with the same key returns `Ok` of exactly the original plaintext. -/
theorem C5_encrypt_decrypt_roundtrip (key : EncryptionKey) (plaintext : List Nat)
    (counter : Nat) :
    (EncryptedNote.encrypt key plaintext counter).decrypt key = .ok plaintext := by
  simp only [EncryptedNote.encrypt, EncryptedNote.decrypt]
  have hks : (key.derive_keystream (key.derive_nonce counter) plaintext.length).length =
      plaintext.length := derive_keystream_length key _ _
  have hct : (List.zipWith (fun p k => p ^^^ k) plaintext
      (key.derive_keystream (key.derive_nonce counter) plaintext.length)).length =
      plaintext.length := by
    rw [List.length_zipWith, hks, Nat.min_self]
  rw [hct]
  rw [zipWith_xor_cancel _ _ (le_of_eq hks.symm)]

/-- C6: decrypt is total: for every encrypted note and every key (right or
wrong), it returns `Ok` with a byte vector of the ciphertext's length; the
error branch of its `Result` is unreachable. -/
theorem C6_decrypt_never_fails (e : EncryptedNote) (key : EncryptionKey) :
    ∃ pt, e.decrypt key = .ok pt ∧ pt.length = e.ciphertext.length := by
  refine ⟨_, rfl, ?_⟩
  rw [List.length_zipWith, derive_keystream_length, Nat.min_self]

/-- C7: serialization round-trips: decoding the encoding returns `Ok` of the
original value for `Commitment`, `EncryptedNote`, `ExitNote`, `ExitProof`, and
every `ExitTerms` value of all four variants, under the range and length
invariants the Rust types (`[u8; 32]`, `u64`, `u16`) carry for free. -/
theorem C7_serialization_roundtrips :
    (∀ c : Commitment, c.hash.length = 32 →
      Commitment.from_bytes c.as_bytes = .ok c) ∧
    (∀ e : EncryptedNote, e.counter < 2 ^ 64 →
      EncryptedNote.from_bytes e.to_bytes = .ok e) ∧
    (∀ n : ExitNote, n.wf → ExitNote.from_bytes n.to_bytes = .ok n) ∧
    (∀ p : ExitProof, p.wf → ExitProof.from_bytes p.to_bytes = .ok p) ∧
    (∀ t : ExitTerms, t.wf → ExitTerms.from_bytes t.to_bytes = .ok t) := by
  refine ⟨?_, encryptedNote_roundtrip, exitNote_roundtrip,
    exitProof_roundtrip, exitTerms_roundtrip⟩
  intro c hc
  simp only [Commitment.from_bytes, Commitment.as_bytes]
  rw [if_neg (by omega)]

/-- C7 witness: the round-trips evaluated at concrete values of every type,
including all four `ExitTerms` variants. -/
theorem C7_serialization_roundtrips_witness :
    Commitment.from_bytes (Commitment.mk (List.replicate 32 5)).as_bytes =
      .ok (Commitment.mk (List.replicate 32 5)) ∧
    EncryptedNote.from_bytes (EncryptedNote.mk [10, 20, 30] 77).to_bytes =
      .ok (EncryptedNote.mk [10, 20, 30] 77) ∧
    ExitNote.from_bytes (ExitNote.mk (List.replicate 32 7) 1000 (List.replicate 32 42)
        .Standard 0 (List.replicate 32 9)).to_bytes =
      .ok (ExitNote.mk (List.replicate 32 7) 1000 (List.replicate 32 42)
        .Standard 0 (List.replicate 32 9)) ∧
    ExitProof.from_bytes (ExitProof.mk (Commitment.mk (List.replicate 32 1))
        (List.replicate 32 2) (List.replicate 32 3) (List.replicate 32 4)
        (List.replicate 32 6)).to_bytes =
      .ok (ExitProof.mk (Commitment.mk (List.replicate 32 1)) (List.replicate 32 2)
        (List.replicate 32 3) (List.replicate 32 4) (List.replicate 32 6)) ∧
    ExitTerms.from_bytes ExitTerms.Immediate.to_bytes = .ok .Immediate ∧
    ExitTerms.from_bytes ExitTerms.Standard.to_bytes = .ok .Standard ∧
    ExitTerms.from_bytes (ExitTerms.Delayed 1000).to_bytes = .ok (.Delayed 1000) ∧
    ExitTerms.from_bytes (ExitTerms.Custom 9500 50).to_bytes = .ok (.Custom 9500 50) :=
  ⟨C7_serialization_roundtrips.1 _ (by simp),
   C7_serialization_roundtrips.2.1 _ (by norm_num),
   C7_serialization_roundtrips.2.2.1 _ (by decide),
   C7_serialization_roundtrips.2.2.2.1 _ (by decide),
   C7_serialization_roundtrips.2.2.2.2 _ (by decide),
   C7_serialization_roundtrips.2.2.2.2 _ (by decide),
   C7_serialization_roundtrips.2.2.2.2 _ (by decide),
   C7_serialization_roundtrips.2.2.2.2 _ (by decide)⟩

/-- C2: `verify` rejects a used nullifier first with the exact message
"Nullifier already used"; otherwise it fails with `ProofVerificationFailed`
when any of response, announcement, nullifier, or verification tag is the
all-zero value; otherwise it recomputes the challenge and the verification
tag and fails with "Verification tag mismatch" exactly when the recomputed
tag differs, returning `Ok` when it matches. -/
theorem C2_verify_behavior (v : ProofVerifier) (proof : ExitProof) :
    (proof.nullifier ∈ v.used_nullifiers →
      v.verify proof = .error (.ProofVerificationFailed "Nullifier already used")) ∧
    (proof.nullifier ∉ v.used_nullifiers →
      (proof.response = zero32 ∨ proof.announcement = zero32 ∨
        proof.nullifier = zero32 ∨ proof.verification_tag = zero32) →
      ∃ s, v.verify proof = .error (.ProofVerificationFailed s)) ∧
    (proof.nullifier ∉ v.used_nullifiers →
      proof.response ≠ zero32 → proof.announcement ≠ zero32 →
      proof.nullifier ≠ zero32 → proof.verification_tag ≠ zero32 →
      proof.verification_tag ≠ v.compute_verification_tag proof.response
        (v.compute_challenge proof.commitment proof.nullifier proof.announcement)
        proof.announcement proof.commitment proof.nullifier →
      v.verify proof = .error (.ProofVerificationFailed "Verification tag mismatch")) ∧
    (proof.nullifier ∉ v.used_nullifiers →
      proof.response ≠ zero32 → proof.announcement ≠ zero32 →
      proof.nullifier ≠ zero32 → proof.verification_tag ≠ zero32 →
      proof.verification_tag = v.compute_verification_tag proof.response
        (v.compute_challenge proof.commitment proof.nullifier proof.announcement)
        proof.announcement proof.commitment proof.nullifier →
      v.verify proof = .ok ()) := by
  refine ⟨?_, ?_, ?_, ?_⟩
  · intro hmem
    simp only [ProofVerifier.verify]
    rw [if_pos hmem]
  · intro hmem hzero
    simp only [ProofVerifier.verify, ProofVerifier.verify_basic_structure,
      ProofVerifier.verify_proof_cryptography]
    rw [if_neg hmem]
    by_cases hr : proof.response = zero32
    · exact ⟨"Invalid response: zero value", by rw [if_pos hr]⟩
    rw [if_neg hr]
    by_cases ha : proof.announcement = zero32
    · exact ⟨"Invalid announcement: zero value", by rw [if_pos ha]⟩
    rw [if_neg ha]
    by_cases hn : proof.nullifier = zero32
    · exact ⟨"Invalid nullifier: zero value", by rw [if_pos hn]⟩
    rw [if_neg hn]
    by_cases ht : proof.verification_tag = zero32
    · exact ⟨"Invalid verification tag: zero value", by rw [if_pos ht]⟩
    rcases hzero with h | h | h | h
    · exact absurd h hr
    · exact absurd h ha
    · exact absurd h hn
    · exact absurd h ht
  · intro hmem hr ha hn ht htag
    simp only [ProofVerifier.verify, ProofVerifier.verify_basic_structure,
      ProofVerifier.verify_proof_cryptography]
    rw [if_neg hmem, if_neg hr, if_neg ha, if_neg hn, if_neg ht, if_pos htag]
  · intro hmem hr ha hn ht htag
    simp only [ProofVerifier.verify, ProofVerifier.verify_basic_structure,
      ProofVerifier.verify_proof_cryptography]
    rw [if_neg hmem, if_neg hr, if_neg ha, if_neg hn, if_neg ht,
      if_neg (by simp [htag])]

/-- C2 witness: a verifier whose used set already holds the proof's nullifier
rejects with the exact "Nullifier already used" error. -/
theorem C2_verify_behavior_witness :
    (ProofVerifier.mk (List.replicate 32 0) [List.replicate 32 1]).verify
      (ExitProof.mk (Commitment.mk (List.replicate 32 2)) (List.replicate 32 3)
        (List.replicate 32 4) (List.replicate 32 5) (List.replicate 32 1)) =
      .error (.ProofVerificationFailed "Nullifier already used") :=
  (C2_verify_behavior _ _).1 (by decide)

/-- C3: after `mark_nullifier_used n`, `is_nullifier_used n` is true, every
subsequent `verify` (after any further marks) of a proof carrying nullifier
`n` fails with `ProofVerificationFailed`, and no operation removes a
nullifier: marking never un-marks anything previously marked. -/
theorem C3_nullifier_one_way (v : ProofVerifier) (n : List Nat) :
    (v.mark_nullifier_used n).is_nullifier_used n = true ∧
    (∀ (ms : List (List Nat)) (p : ExitProof), p.nullifier = n →
      ∃ s, (ms.foldl ProofVerifier.mark_nullifier_used
        (v.mark_nullifier_used n)).verify p =
          .error (.ProofVerificationFailed s)) ∧
    (∀ m : List Nat, v.is_nullifier_used m = true →
      (v.mark_nullifier_used n).is_nullifier_used m = true) := by
  have hmono : ∀ (ms : List (List Nat)) (w : ProofVerifier) (x : List Nat),
      x ∈ w.used_nullifiers →
      x ∈ (ms.foldl ProofVerifier.mark_nullifier_used w).used_nullifiers := by
    intro ms
    induction ms with
    | nil => intro w x hx; exact hx
    | cons m rest ih =>
      intro w x hx
      exact ih _ x (List.mem_cons_of_mem m hx)
  refine ⟨?_, ?_, ?_⟩
  · simp [ProofVerifier.is_nullifier_used, ProofVerifier.mark_nullifier_used]
  · intro ms p hp
    refine ⟨"Nullifier already used", ?_⟩
    have hx : p.nullifier ∈
        (ms.foldl ProofVerifier.mark_nullifier_used
          (v.mark_nullifier_used n)).used_nullifiers := by
      apply hmono
      simp [ProofVerifier.mark_nullifier_used, hp]
    simp only [ProofVerifier.verify]
    rw [if_pos hx]
  · intro m hm
    simp only [ProofVerifier.is_nullifier_used, decide_eq_true_eq] at hm ⊢
    exact List.mem_cons_of_mem n hm

/-- C3 witness: marking a concrete nullifier on a fresh verifier makes
`is_nullifier_used` true and a proof with that nullifier fail. -/
theorem C3_nullifier_one_way_witness :
    ((ProofVerifier.mk (List.replicate 32 0) []).mark_nullifier_used
      (List.replicate 32 1)).is_nullifier_used (List.replicate 32 1) = true ∧
    ∃ s, (List.foldl ProofVerifier.mark_nullifier_used
      ((ProofVerifier.mk (List.replicate 32 0) []).mark_nullifier_used
        (List.replicate 32 1)) []).verify
      (ExitProof.mk (Commitment.mk (List.replicate 32 2)) (List.replicate 32 3)
        (List.replicate 32 4) (List.replicate 32 5) (List.replicate 32 1)) =
      .error (.ProofVerificationFailed s) :=
  ⟨(C3_nullifier_one_way (ProofVerifier.mk (List.replicate 32 0) [])
      (List.replicate 32 1)).1,
   (C3_nullifier_one_way (ProofVerifier.mk (List.replicate 32 0) [])
      (List.replicate 32 1)).2.1 [] _ rfl⟩

/-- Concrete exit note mirroring the crate's own test fixture:
amount 1000, owner `[42; 32]`, Standard terms (with fixed id and blinding). -/
def exampleNote : ExitNote :=
  { note_id := List.replicate 32 7, amount := 1000, owner := List.replicate 32 42,
    terms := .Standard, created_at := 0, blinding_factor := List.replicate 32 9 }

/-- Concrete owner secret `[123; 32]` from the crate's tests. -/
def exampleSecret : List Nat := List.replicate 32 123

/-- Concrete random nonce for proof generation. -/
def exampleK : List Nat := List.replicate 32 5

/-- The proof generated for the example note under the "voile_mainnet" domain. -/
def exampleProof : ExitProof :=
  match (ProofGenerator.new (strBytes "voile_mainnet")).generate exampleNote
      exampleSecret exampleK with
  | .ok p => p
  | .error _ => ExitProof.mk (Commitment.mk []) [] [] [] []

/-- Success condition for `verify`, shared by several claims: an unused
nullifier, the four non-zero checks, and a matching recomputed tag give `Ok`. -/
theorem ProofVerifier.verify_ok (v : ProofVerifier) (p : ExitProof)
    (hmem : p.nullifier ∉ v.used_nullifiers)
    (hr : p.response ≠ zero32) (ha : p.announcement ≠ zero32)
    (hn : p.nullifier ≠ zero32) (ht : p.verification_tag ≠ zero32)
    (htag : p.verification_tag = v.compute_verification_tag p.response
      (v.compute_challenge p.commitment p.nullifier p.announcement)
      p.announcement p.commitment p.nullifier) :
    v.verify p = .ok () := by
  simp only [ProofVerifier.verify, ProofVerifier.verify_basic_structure,
    ProofVerifier.verify_proof_cryptography]
  rw [if_neg hmem, if_neg hr, if_neg ha, if_neg hn, if_neg ht,
    if_neg (by simp [htag])]

/-- C1: a proof produced by `generate` is accepted by a fresh verifier with
the same domain, and its commitment field equals the note's commitment.  The
four non-zero hypotheses are the verifier's structural sanity checks; they
hold of the generated (hash-valued) fields and are discharged concretely in
the witness. -/
theorem C1_generate_then_verify (dom : List Nat) (note : ExitNote)
    (owner_secret random_k : List Nat) (p : ExitProof)
    (hp : (ProofGenerator.new dom).generate note owner_secret random_k = .ok p)
    (hr : p.response ≠ zero32) (ha : p.announcement ≠ zero32)
    (hn : p.nullifier ≠ zero32) (ht : p.verification_tag ≠ zero32) :
    (ProofVerifier.new dom).verify p = .ok () ∧ p.commitment = note.commitment := by
  simp only [ProofGenerator.generate, Except.ok.injEq] at hp
  subst hp
  exact ⟨ProofVerifier.verify_ok _ _ (List.not_mem_nil _) hr ha hn ht rfl, rfl⟩

/-- C1 witness: the spec's end-to-end example, evaluated concretely: generate
for `(amount 1000, owner [42; 32], Standard)` under "voile_mainnet" with
secret `[123; 32]`, then verify with a fresh "voile_mainnet" verifier. -/
theorem C1_generate_then_verify_witness :
    (ProofVerifier.new (strBytes "voile_mainnet")).verify exampleProof = .ok () ∧
    exampleProof.commitment = exampleNote.commitment :=
  C1_generate_then_verify (strBytes "voile_mainnet") exampleNote exampleSecret
    exampleK exampleProof rfl (by decide) (by decide) (by decide) (by decide)

/-- The nullifier field of a generated proof is `compute_nullifier` of the
note id and secret alone: the random nonce `k` never enters it. -/
theorem generate_nullifier (g : ProofGenerator) (note : ExitNote) (s k : List Nat) :
    (g.generate note s k).map ExitProof.nullifier =
      .ok (g.compute_nullifier note.note_id s) := rfl

/-- C4: the nullifier of a generated proof does not depend on the random
nonce `k` at all, and equals `compute_nullifier(note_id, owner_secret)`, a
pure function of domain, note id and secret; moreover changing only the
secret, or only the domain, changes the nullifier, established here at the
repository's own test inputs (secrets `[1; 32]` vs `[2; 32]`, domains
"chain_1" vs "chain_2"). -/
theorem C4_nullifier_deterministic :
    (∀ (dom : List Nat) (note : ExitNote) (owner_secret k1 k2 : List Nat),
      ((ProofGenerator.new dom).generate note owner_secret k1).map ExitProof.nullifier =
        ((ProofGenerator.new dom).generate note owner_secret k2).map ExitProof.nullifier) ∧
    (∀ (dom : List Nat) (note : ExitNote) (owner_secret k : List Nat),
      ((ProofGenerator.new dom).generate note owner_secret k).map ExitProof.nullifier =
        .ok ((ProofGenerator.new dom).compute_nullifier note.note_id owner_secret)) ∧
    (ProofGenerator.new (strBytes "voile_mainnet")).compute_nullifier
        exampleNote.note_id (List.replicate 32 1) ≠
      (ProofGenerator.new (strBytes "voile_mainnet")).compute_nullifier
        exampleNote.note_id (List.replicate 32 2) ∧
    (ProofGenerator.new (strBytes "chain_1")).compute_nullifier
        exampleNote.note_id (List.replicate 32 55) ≠
      (ProofGenerator.new (strBytes "chain_2")).compute_nullifier
        exampleNote.note_id (List.replicate 32 55) := by
  refine ⟨fun dom note s k1 k2 => ?_, fun dom note s k => generate_nullifier _ _ _ _,
    by decide, by decide⟩
  rw [generate_nullifier, generate_nullifier]

/-! ## Error-condition characterization (C8) -/

/-- The spec's failure condition for `ExitTerms::from_bytes`: empty input,
a tag byte outside 0..3, or a payload shorter than the variant requires
(9 bytes total for Delayed, 5 for Custom). -/
def ExitTerms.failCond (bytes : List Nat) : Prop :=
  bytes = [] ∨
    ¬(bytes.headD 0 = 0 ∨ bytes.headD 0 = 1 ∨ bytes.headD 0 = 2 ∨ bytes.headD 0 = 3) ∨
    (bytes.headD 0 = 2 ∧ bytes.length < 9) ∨
    (bytes.headD 0 = 3 ∧ bytes.length < 5)

/-- The spec's failure condition for `ExitNote::from_bytes`: input shorter
than 114 bytes, declared terms length overrunning the input, or the terms
slice failing its own decoder. -/
def ExitNote.failCond (bytes : List Nat) : Prop :=
  bytes.length < 114 ∨
    bytes.length < 114 + leToNat ((bytes.drop 112).take 2) ∨
    ExitTerms.failCond ((bytes.drop 114).take (leToNat ((bytes.drop 112).take 2)))

/-- Terms decoding fails with `InvalidExitNote` exactly on `failCond`. -/
theorem exitTerms_fail_iff (bytes : List Nat) :
    (ExitTerms.failCond bytes →
      ∃ s, ExitTerms.from_bytes bytes = .error (.InvalidExitNote s)) ∧
    (¬ ExitTerms.failCond bytes → ∃ t, ExitTerms.from_bytes bytes = .ok t) := by
  constructor
  · intro hc
    cases bytes with
    | nil => exact ⟨"Empty terms data", rfl⟩
    | cons b rest =>
      simp only [ExitTerms.from_bytes]
      simp only [ExitTerms.failCond, List.headD_cons] at hc
      rcases hc with h | h | ⟨h2, hl⟩ | ⟨h3, hl⟩
      · exact absurd h (List.cons_ne_nil b rest)
      · push_neg at h
        obtain ⟨h0, h1, h2, h3⟩ := h
        rw [if_neg h0, if_neg h1, if_neg h2, if_neg h3]
        exact ⟨_, rfl⟩
      · subst h2
        rw [if_neg (by omega), if_neg (by omega), if_pos rfl, if_pos hl]
        exact ⟨_, rfl⟩
      · subst h3
        rw [if_neg (by omega), if_neg (by omega), if_neg (by omega), if_pos rfl,
          if_pos hl]
        exact ⟨_, rfl⟩
  · intro hc
    cases bytes with
    | nil => exact absurd (Or.inl rfl) hc
    | cons b rest =>
      simp only [ExitTerms.failCond, List.headD_cons] at hc
      push_neg at hc
      obtain ⟨-, htag, h2, h3⟩ := hc
      simp only [ExitTerms.from_bytes]
      rcases htag with h | h | h | h
      · subst h; exact ⟨_, rfl⟩
      · subst h
        rw [if_neg (by omega), if_pos rfl]
        exact ⟨_, rfl⟩
      · subst h
        rw [if_neg (by omega), if_neg (by omega), if_pos rfl,
          if_neg (Nat.not_lt.mpr (h2 rfl))]
        exact ⟨_, rfl⟩
      · subst h
        rw [if_neg (by omega), if_neg (by omega), if_neg (by omega), if_pos rfl,
          if_neg (Nat.not_lt.mpr (h3 rfl))]
        exact ⟨_, rfl⟩

/-- Note decoding fails with `InvalidExitNote` exactly on `failCond`. -/
theorem exitNote_fail_iff (bytes : List Nat) :
    (ExitNote.failCond bytes →
      ∃ s, ExitNote.from_bytes bytes = .error (.InvalidExitNote s)) ∧
    (¬ ExitNote.failCond bytes → ∃ n, ExitNote.from_bytes bytes = .ok n) := by
  constructor
  · intro hc
    simp only [ExitNote.from_bytes]
    by_cases h114 : bytes.length < 114
    · rw [if_pos h114]; exact ⟨_, rfl⟩
    rw [if_neg h114]
    by_cases htr : bytes.length < 114 + leToNat ((bytes.drop 112).take 2)
    · rw [if_pos htr]; exact ⟨_, rfl⟩
    rw [if_neg htr]
    rcases hc with h | h | h
    · exact absurd h h114
    · exact absurd h htr
    · obtain ⟨s, hs⟩ := (exitTerms_fail_iff _).1 h
      rw [hs]
      exact ⟨s, rfl⟩
  · intro hc
    rw [ExitNote.failCond] at hc
    push_neg at hc
    obtain ⟨h114, htr, hterms⟩ := hc
    simp only [ExitNote.from_bytes]
    rw [if_neg (by omega), if_neg (by omega)]
    obtain ⟨t, ht⟩ := (exitTerms_fail_iff _).2 hterms
    rw [ht]
    exact ⟨_, rfl⟩

/-- C8: both decoders reject with `InvalidExitNote` exactly on the spec's
failure conditions: for terms, an empty input, an unknown tag, or a payload
shorter than the variant requires; for notes, fewer than 114 bytes, a
declared terms length overrunning the input, or a failing terms slice; and
they succeed in every other case. -/
theorem C8_from_bytes_error_conditions :
    (∀ bytes : List Nat,
      (ExitTerms.failCond bytes →
        ∃ s, ExitTerms.from_bytes bytes = .error (.InvalidExitNote s)) ∧
      (¬ ExitTerms.failCond bytes → ∃ t, ExitTerms.from_bytes bytes = .ok t)) ∧
    (∀ bytes : List Nat,
      (ExitNote.failCond bytes →
        ∃ s, ExitNote.from_bytes bytes = .error (.InvalidExitNote s)) ∧
      (¬ ExitNote.failCond bytes → ∃ n, ExitNote.from_bytes bytes = .ok n)) :=
  ⟨exitTerms_fail_iff, exitNote_fail_iff⟩

/-- C8 witness: an unknown tag and a truncated note are rejected with
`InvalidExitNote`; a well-formed Delayed payload and a serialized note are
accepted. -/
theorem C8_from_bytes_error_conditions_witness :
    (∃ s, ExitTerms.from_bytes [9] = .error (.InvalidExitNote s)) ∧
    (∃ t, ExitTerms.from_bytes [2, 1, 0, 0, 0, 0, 0, 0, 0] = .ok t) ∧
    (∃ s, ExitNote.from_bytes [1, 2, 3] = .error (.InvalidExitNote s)) ∧
    (∃ n, ExitNote.from_bytes exampleNote.to_bytes = .ok n) :=
  ⟨(C8_from_bytes_error_conditions.1 [9]).1
      (by unfold ExitTerms.failCond; decide),
   (C8_from_bytes_error_conditions.1 [2, 1, 0, 0, 0, 0, 0, 0, 0]).2
      (by unfold ExitTerms.failCond; decide),
   (C8_from_bytes_error_conditions.2 [1, 2, 3]).1
      (by unfold ExitNote.failCond ExitTerms.failCond; decide),
   (C8_from_bytes_error_conditions.2 exampleNote.to_bytes).2
      (by unfold ExitNote.failCond ExitTerms.failCond; decide)⟩

/-! ## Panic-aware decoders (C9)

Rust slice indexing `&bytes[a..b]` aborts when the range is out of bounds.
To verify that no length-guarded access in the decoders can abort, each
decoder is retraced with every slice access going through `slice?`, which
returns `none` exactly when Rust would panic; a decoder returning `some`
on every input therefore never panics. -/

/-- Bounds-checked slice `&l[a..b]`: `none` models a Rust panic. -/
def slice? (l : List Nat) (a b : Nat) : Option (List Nat) :=
  if a ≤ b ∧ b ≤ l.length then some ((l.drop a).take (b - a)) else none

/-- In-bounds slices succeed. -/
theorem slice?_of_le (l : List Nat) (a b : Nat) (hab : a ≤ b) (hb : b ≤ l.length) :
    slice? l a b = some ((l.drop a).take (b - a)) := by
  unfold slice?
  rw [if_pos ⟨hab, hb⟩]

/-- `Commitment::from_bytes` with its `copy_from_slice` length check explicit. -/
def Commitment.from_bytesChecked (bytes : List Nat) :
    Option (Except VoileError Commitment) :=
  if bytes.length ≠ 32 then
    some (.error (.InvalidCommitment ("Expected 32 bytes, got " ++ toString bytes.length)))
  else if bytes.length = 32 then some (.ok { hash := bytes })
  else none

/-- `EncryptedNote::from_bytes` with both slice accesses bounds-checked. -/
def EncryptedNote.from_bytesChecked (bytes : List Nat) :
    Option (Except VoileError EncryptedNote) :=
  if bytes.length < 8 then
    some (.error (.DecryptionError "Encrypted note too short"))
  else
    (slice? bytes 0 8).bind fun c8 =>
    (slice? bytes 8 bytes.length).bind fun ct =>
    some (.ok { ciphertext := ct, counter := leToNat c8 })

/-- `ExitTerms::from_bytes` with every payload access bounds-checked. -/
def ExitTerms.from_bytesChecked (bytes : List Nat) :
    Option (Except VoileError ExitTerms) :=
  match bytes with
  | [] => some (.error (.InvalidExitNote "Empty terms data"))
  | b :: _ =>
    if b = 0 then some (.ok .Immediate)
    else if b = 1 then some (.ok .Standard)
    else if b = 2 then
      if bytes.length < 9 then
        some (.error (.InvalidExitNote "Delayed terms missing blocks"))
      else
        (slice? bytes 1 9).bind fun s =>
        some (.ok (.Delayed (leToNat s)))
    else if b = 3 then
      if bytes.length < 5 then
        some (.error (.InvalidExitNote "Custom terms missing parameters"))
      else
        (slice? bytes 1 3).bind fun s1 =>
        (slice? bytes 3 5).bind fun s2 =>
        some (.ok (.Custom (leToNat s1) (leToNat s2)))
    else some (.error (.InvalidExitNote ("Unknown terms type: " ++ toString b)))

/-- `ExitNote::from_bytes` with every header and terms access bounds-checked. -/
def ExitNote.from_bytesChecked (bytes : List Nat) :
    Option (Except VoileError ExitNote) :=
  if bytes.length < 114 then
    some (.error (.InvalidExitNote ("Exit note too short: " ++ toString bytes.length ++ " bytes")))
  else
    (slice? bytes 0 32).bind fun idb =>
    (slice? bytes 32 40).bind fun amb =>
    (slice? bytes 40 72).bind fun owb =>
    (slice? bytes 72 80).bind fun cab =>
    (slice? bytes 80 112).bind fun bfb =>
    (slice? bytes 112 114).bind fun tlb =>
    if bytes.length < 114 + leToNat tlb then
      some (.error (.InvalidExitNote "Exit note truncated"))
    else
      (slice? bytes 114 (114 + leToNat tlb)).bind fun tsb =>
      (ExitTerms.from_bytesChecked tsb).bind fun tr =>
      some (match tr with
        | .error e => .error e
        | .ok terms =>
          .ok { note_id := idb, amount := leToNat amb, owner := owb, terms,
                created_at := leToNat cab, blinding_factor := bfb })

/-- `ExitProof::from_bytes` with all five slice accesses bounds-checked. -/
def ExitProof.from_bytesChecked (bytes : List Nat) :
    Option (Except VoileError ExitProof) :=
  if bytes.length ≠ 160 then
    some (.error (.ProofVerificationFailed
      ("Invalid proof size: expected 160, got " ++ toString bytes.length)))
  else
    (slice? bytes 0 32).bind fun cb =>
    (slice? bytes 32 64).bind fun ab =>
    (slice? bytes 64 96).bind fun rb =>
    (slice? bytes 96 128).bind fun vb =>
    (slice? bytes 128 160).bind fun nb =>
    (Commitment.from_bytesChecked cb).bind fun cr =>
    some (match cr with
      | .error e => .error e
      | .ok commitment =>
        .ok { commitment, announcement := ab, response := rb,
              verification_tag := vb, nullifier := nb })

/-- The checked commitment decoder never aborts and agrees with the decoder. -/
theorem commitment_checked_eq (bytes : List Nat) :
    Commitment.from_bytesChecked bytes = some (Commitment.from_bytes bytes) := by
  by_cases h : bytes.length = 32 <;>
    simp [Commitment.from_bytesChecked, Commitment.from_bytes, h]

/-- The checked encrypted-note decoder never aborts and agrees with the
decoder. -/
theorem encryptedNote_checked_eq (bytes : List Nat) :
    EncryptedNote.from_bytesChecked bytes = some (EncryptedNote.from_bytes bytes) := by
  by_cases h : bytes.length < 8
  · simp [EncryptedNote.from_bytesChecked, EncryptedNote.from_bytes, h]
  simp only [EncryptedNote.from_bytesChecked, EncryptedNote.from_bytes]
  rw [if_neg h, if_neg h]
  rw [slice?_of_le bytes 0 8 (by omega) (by omega)]
  rw [slice?_of_le bytes 8 bytes.length (by omega) (by omega)]
  simp only [Option.some_bind, List.drop_zero]
  have h1 : bytes.length - 8 = (bytes.drop 8).length := by simp
  rw [h1, List.take_length]

/-- The checked terms decoder never aborts and agrees with the decoder. -/
theorem exitTerms_checked_eq (bytes : List Nat) :
    ExitTerms.from_bytesChecked bytes = some (ExitTerms.from_bytes bytes) := by
  cases bytes with
  | nil => rfl
  | cons b rest =>
    simp only [ExitTerms.from_bytesChecked, ExitTerms.from_bytes]
    by_cases h0 : b = 0
    · simp [h0]
    by_cases h1 : b = 1
    · simp [h0, h1]
    by_cases h2 : b = 2
    · subst h2
      rw [if_neg h0, if_neg h1, if_pos rfl, if_neg h0, if_neg h1, if_pos rfl]
      by_cases hl : (2 :: rest).length < 9
      · rw [if_pos hl, if_pos hl]
      · rw [if_neg hl, if_neg hl]
        rw [slice?_of_le (2 :: rest) 1 9 (by omega) (by omega)]
        rfl
    by_cases h3 : b = 3
    · subst h3
      rw [if_neg h0, if_neg h1, if_neg h2, if_pos rfl, if_neg h0, if_neg h1,
        if_neg h2, if_pos rfl]
      by_cases hl : (3 :: rest).length < 5
      · rw [if_pos hl, if_pos hl]
      · rw [if_neg hl, if_neg hl]
        rw [slice?_of_le (3 :: rest) 1 3 (by omega) (by omega)]
        rw [slice?_of_le (3 :: rest) 3 5 (by omega) (by omega)]
        rfl
    · simp [h0, h1, h2, h3]

/-- The checked note decoder never aborts and agrees with the decoder. -/
theorem exitNote_checked_eq (bytes : List Nat) :
    ExitNote.from_bytesChecked bytes = some (ExitNote.from_bytes bytes) := by
  by_cases h : bytes.length < 114
  · simp [ExitNote.from_bytesChecked, ExitNote.from_bytes, h]
  simp only [ExitNote.from_bytesChecked, ExitNote.from_bytes]
  rw [if_neg h, if_neg h]
  rw [slice?_of_le bytes 0 32 (by omega) (by omega)]
  simp only [Option.some_bind]
  rw [slice?_of_le bytes 32 40 (by omega) (by omega)]
  simp only [Option.some_bind]
  rw [slice?_of_le bytes 40 72 (by omega) (by omega)]
  simp only [Option.some_bind]
  rw [slice?_of_le bytes 72 80 (by omega) (by omega)]
  simp only [Option.some_bind]
  rw [slice?_of_le bytes 80 112 (by omega) (by omega)]
  simp only [Option.some_bind]
  rw [slice?_of_le bytes 112 114 (by omega) (by omega)]
  simp only [Option.some_bind, List.drop_zero]
  norm_num
  by_cases htl : bytes.length < 114 + leToNat ((bytes.drop 112).take 2)
  · rw [if_pos htl, if_pos htl]
  rw [if_neg htl, if_neg htl]
  rw [slice?_of_le bytes 114 (114 + leToNat ((bytes.drop 112).take 2))
    (by omega) (by omega)]
  simp only [Option.some_bind, Nat.add_sub_cancel_left]
  rw [exitTerms_checked_eq]
  simp only [Option.some_bind]

/-- The checked proof decoder never aborts and agrees with the decoder. -/
theorem exitProof_checked_eq (bytes : List Nat) :
    ExitProof.from_bytesChecked bytes = some (ExitProof.from_bytes bytes) := by
  by_cases h : bytes.length = 160
  · simp only [ExitProof.from_bytesChecked, ExitProof.from_bytes]
    rw [if_neg (by omega), if_neg (by omega)]
    rw [slice?_of_le bytes 0 32 (by omega) (by omega)]
    simp only [Option.some_bind]
    rw [slice?_of_le bytes 32 64 (by omega) (by omega)]
    simp only [Option.some_bind]
    rw [slice?_of_le bytes 64 96 (by omega) (by omega)]
    simp only [Option.some_bind]
    rw [slice?_of_le bytes 96 128 (by omega) (by omega)]
    simp only [Option.some_bind]
    rw [slice?_of_le bytes 128 160 (by omega) (by omega)]
    simp only [Option.some_bind, List.drop_zero]
    norm_num
    rw [commitment_checked_eq]
    simp only [Option.some_bind]
  · simp [ExitProof.from_bytesChecked, ExitProof.from_bytes, h]

/-- C9: every decoder is total on attacker-supplied bytes: retraced with all
slice accesses bounds-checked (`none` marking a Rust panic), each decoder
returns `some` typed result on every input, equal to the decoder's value, so
every slice index is within bounds given the preceding length checks. -/
theorem C9_parsing_total :
    (∀ bytes : List Nat,
      Commitment.from_bytesChecked bytes = some (Commitment.from_bytes bytes)) ∧
    (∀ bytes : List Nat,
      EncryptedNote.from_bytesChecked bytes = some (EncryptedNote.from_bytes bytes)) ∧
    (∀ bytes : List Nat,
      ExitTerms.from_bytesChecked bytes = some (ExitTerms.from_bytes bytes)) ∧
    (∀ bytes : List Nat,
      ExitNote.from_bytesChecked bytes = some (ExitNote.from_bytes bytes)) ∧
    (∀ bytes : List Nat,
      ExitProof.from_bytesChecked bytes = some (ExitProof.from_bytes bytes)) :=
  ⟨commitment_checked_eq, encryptedNote_checked_eq,
   exitTerms_checked_eq, exitNote_checked_eq,
   exitProof_checked_eq⟩

/-! ## Trailing-byte leniency (C10) -/

/-- A slice lying inside the original list is unchanged by appended bytes. -/
theorem take_drop_append (l extra : List Nat) (a b : Nat) (h : a + b ≤ l.length) :
    ((l ++ extra).drop a).take b = (l.drop a).take b := by
  rw [List.drop_append_eq_append_drop]
  have ha : a - l.length = 0 := by omega
  rw [ha, List.drop_zero, List.take_append_eq_append_take]
  have hb : b - (l.drop a).length = 0 := by rw [List.length_drop]; omega
  rw [hb, List.take_zero, List.append_nil]

/-- Appending bytes after a successfully decoded terms buffer never changes
the result: the decoder reads only the variant's own payload. -/
theorem exitTerms_append_ok (bytes extra : List Nat) (t : ExitTerms)
    (h : ExitTerms.from_bytes bytes = .ok t) :
    ExitTerms.from_bytes (bytes ++ extra) = .ok t := by
  cases bytes with
  | nil => exact absurd h (by simp [ExitTerms.from_bytes])
  | cons b rest =>
    simp only [ExitTerms.from_bytes, List.cons_append] at h ⊢
    by_cases h0 : b = 0
    · rw [if_pos h0] at h ⊢; exact h
    rw [if_neg h0] at h ⊢
    by_cases h1 : b = 1
    · rw [if_pos h1] at h ⊢; exact h
    rw [if_neg h1] at h ⊢
    by_cases h2 : b = 2
    · rw [if_pos h2] at h ⊢
      by_cases hl : (b :: rest).length < 9
      · rw [if_pos hl] at h; exact absurd h (by simp)
      · rw [if_neg hl] at h
        rw [if_neg (show ¬(b :: (rest ++ extra)).length < 9 by
          simp only [List.length_cons, List.length_append] at hl ⊢; omega)]
        simp only [List.drop_succ_cons, List.drop_zero] at h ⊢
        rw [List.take_append_of_le_length (by
          simp only [List.length_cons] at hl; omega)]
        exact h
    rw [if_neg h2] at h ⊢
    by_cases h3 : b = 3
    · rw [if_pos h3] at h ⊢
      by_cases hl : (b :: rest).length < 5
      · rw [if_pos hl] at h; exact absurd h (by simp)
      · rw [if_neg hl] at h
        rw [if_neg (show ¬(b :: (rest ++ extra)).length < 5 by
          simp only [List.length_cons, List.length_append] at hl ⊢; omega)]
        simp only [List.drop_succ_cons, List.drop_zero] at h ⊢
        rw [List.take_append_of_le_length (by
          simp only [List.length_cons] at hl; omega)]
        rw [show ((rest ++ extra).drop 2).take 2 = (rest.drop 2).take 2 from
          take_drop_append rest extra 2 2 (by
            simp only [List.length_cons] at hl; omega)]
        exact h
    rw [if_neg h3] at h
    exact absurd h (by simp)

/-- Appending bytes after a successfully decoded note buffer never changes
the result: the decoder reads only the 114-byte header and the declared
terms slice. -/
theorem exitNote_append_ok (bytes extra : List Nat) (n : ExitNote)
    (h : ExitNote.from_bytes bytes = .ok n) :
    ExitNote.from_bytes (bytes ++ extra) = .ok n := by
  simp only [ExitNote.from_bytes] at h ⊢
  by_cases h114 : bytes.length < 114
  · rw [if_pos h114] at h; exact absurd h (by simp)
  rw [if_neg h114] at h
  rw [if_neg (show ¬(bytes ++ extra).length < 114 by
    rw [List.length_append]; omega)]
  rw [show ((bytes ++ extra).drop 112).take 2 = (bytes.drop 112).take 2 from
    take_drop_append bytes extra 112 2 (by omega)]
  by_cases htr : bytes.length < 114 + leToNat ((bytes.drop 112).take 2)
  · rw [if_pos htr] at h; exact absurd h (by simp)
  rw [if_neg htr] at h
  rw [if_neg (show ¬(bytes ++ extra).length <
      114 + leToNat ((bytes.drop 112).take 2) by
    rw [List.length_append]; omega)]
  rw [show ((bytes ++ extra).drop 114).take (leToNat ((bytes.drop 112).take 2)) =
      (bytes.drop 114).take (leToNat ((bytes.drop 112).take 2)) from
    take_drop_append bytes extra 114 _ (by omega)]
  rw [List.take_append_of_le_length (by omega)]
  rw [show ((bytes ++ extra).drop 32).take 8 = (bytes.drop 32).take 8 from
    take_drop_append bytes extra 32 8 (by omega)]
  rw [show ((bytes ++ extra).drop 40).take 32 = (bytes.drop 40).take 32 from
    take_drop_append bytes extra 40 32 (by omega)]
  rw [show ((bytes ++ extra).drop 72).take 8 = (bytes.drop 72).take 8 from
    take_drop_append bytes extra 72 8 (by omega)]
  rw [show ((bytes ++ extra).drop 80).take 32 = (bytes.drop 80).take 32 from
    take_drop_append bytes extra 80 32 (by omega)]
  exact h

/-- C10: both decoders silently ignore trailing bytes: any successfully
decoded buffer still decodes to the same value after appending arbitrary
bytes, so distinct inputs can decode to equal values (shown concretely for a
Delayed terms buffer with an extra byte and a serialized note with an extra
byte). -/
theorem C10_trailing_bytes_ignored :
    (∀ (bytes extra : List Nat) (n : ExitNote),
      ExitNote.from_bytes bytes = .ok n →
      ExitNote.from_bytes (bytes ++ extra) = .ok n) ∧
    (∀ (bytes extra : List Nat) (t : ExitTerms),
      ExitTerms.from_bytes bytes = .ok t →
      ExitTerms.from_bytes (bytes ++ extra) = .ok t) ∧
    ((2 :: List.replicate 8 0) ≠ (2 :: List.replicate 8 0) ++ [7] ∧
      ExitTerms.from_bytes (2 :: List.replicate 8 0) =
        ExitTerms.from_bytes ((2 :: List.replicate 8 0) ++ [7]) ∧
      ExitTerms.from_bytes (2 :: List.replicate 8 0) = .ok (.Delayed 0)) ∧
    (exampleNote.to_bytes ≠ exampleNote.to_bytes ++ [0] ∧
      ExitNote.from_bytes exampleNote.to_bytes =
        ExitNote.from_bytes (exampleNote.to_bytes ++ [0]) ∧
      ExitNote.from_bytes exampleNote.to_bytes = .ok exampleNote) := by
  refine ⟨exitNote_append_ok, exitTerms_append_ok,
    ⟨by decide, rfl, rfl⟩, ⟨by decide, rfl, rfl⟩⟩

/-- C10 witness: the prefix-extension parts applied at concrete inputs. -/
theorem C10_trailing_bytes_ignored_witness :
    ExitNote.from_bytes (exampleNote.to_bytes ++ [1, 2, 3]) = .ok exampleNote ∧
    ExitTerms.from_bytes ([1] ++ [9, 9]) = .ok .Standard :=
  ⟨C10_trailing_bytes_ignored.1 exampleNote.to_bytes [1, 2, 3] exampleNote rfl,
   C10_trailing_bytes_ignored.2.1 [1] [9, 9] .Standard rfl⟩
